import Mathlib

/-!
Shallow embedding of the TBN-Search client (the search screen in App.tsx,
latest revision: debounced query, engine/network/tags filters, dual parallel
fetch with AbortController supersession, tabbed result lists, detail dialog).
Pure functions are translated directly; the asynchronous fetch-cycle logic is
embedded as a small-step event semantics over start/settle events.
-/

/-- UI category of a result card; documentType playlist maps to series and
media maps to episode, as in mapApiToItem. -/
inductive Kind where
  | series
  | episode
deriving Repr, DecidableEq

/-- Raw API record: the subset of fields the client declares and consumes
(type ApiItem in App.tsx). Optional fields are Option. -/
structure ApiItem where
  id : String
  externalId : Option String
  title : String
  description : Option String
  thumbnailUrl : Option String
  tags : Option (List String)
  documentType : String
deriving Repr, DecidableEq

/-- Normalized UI item (type Item in App.tsx); raw keeps the full API record
for the dialog. -/
structure Item where
  id : String
  kind : Kind
  title : String
  description : String
  image : String
  raw : Option ApiItem
deriving Repr, DecidableEq

/-- JavaScript value-or-default on an optional string: x possibly undefined,
then x || d, where the empty string is falsy. -/
def jsOrElse (x : Option String) (d : String) : String :=
  match x with
  | some s => if s = "" then d else s
  | none => d

/-- Translation of mapApiToItem: kind from documentType, description and image
defaulted with the JavaScript or-operator, raw set to the original record. -/
def mapApiToItem (ai : ApiItem) : Item :=
  { id := ai.id
    kind := if ai.documentType = "playlist" then Kind.series else Kind.episode
    title := ai.title
    description := jsOrElse ai.description ""
    image := jsOrElse ai.thumbnailUrl ""
    raw := some ai }

/-- Payload of the data field of the API response envelope. The code reads
results and total defensively (the ?? operator), so those two are Option. -/
structure ApiData where
  engine : String
  limit : Int
  page : Int
  results : Option (List ApiItem)
  total : Option Int
deriving Repr, DecidableEq

/-- API response envelope (type ApiResponse in App.tsx); data read through the
optional-chaining operator, so it is Option. -/
structure ApiResponse where
  message : String
  data : Option ApiData
deriving Repr, DecidableEq

/-- An HTTP response as fetch resolves it: a status code and a body; json is
none when the body is not valid JSON, in which case res.json() rejects. -/
structure HttpResp where
  status : Nat
  json : Option ApiResponse
deriving Repr, DecidableEq

/-- Outcome of one fetch call from the network side: a delivered response
(any status), or a transport failure (fetch itself rejects). Abort is not a
network outcome; it is modelled at the cycle level, where supersession
happens. -/
inductive FetchOutcome where
  | ok (r : HttpResp)
  | networkError
deriving Repr, DecidableEq

/-- Value returned by fetchOne on success: the mapped item list and the total
reported by the API. -/
structure FetchResult where
  mapped : List Item
  total : Int
deriving Repr, DecidableEq

/-- Response handling of fetchOne: await fetch (transport failure rejects),
await res.json() (malformed body rejects), then read
data?.data?.results ?? [] and data?.data?.total ?? 0. The status code is
never inspected. -/
def fetchOneResult (o : FetchOutcome) : Except Unit FetchResult :=
  match o with
  | FetchOutcome.networkError => Except.error ()
  | FetchOutcome.ok r =>
      match r.json with
      | none => Except.error ()
      | some resp =>
          Except.ok
            { mapped :=
                (match resp.data with
                 | some d => d.results.getD []
                 | none => []).map mapApiToItem
              total :=
                match resp.data with
                | some d => d.total.getD 0
                | none => 0 }

/-- True when fetchOne rejects (is caught by the catch block of fetchData). -/
def isErr (x : Except Unit FetchResult) : Bool :=
  match x with
  | Except.error _ => true
  | Except.ok _ => false

/-- Base API URL constant from App.tsx. -/
def API_BASE : String := "https://mbs-dev-api.trilogyapps.com/api"

/-- URLSearchParams.set: update the value when the key exists, else append. -/
def setParam (ps : List (String × String)) (k v : String) : List (String × String) :=
  if ps.any (fun p => p.1 == k) then
    ps.map (fun p => if p.1 == k then (k, v) else p)
  else ps ++ [(k, v)]

/-- Serialization of the parameter list into a query string, ampersand-joined
key=value pairs; percent-encoding is elided since no claim depends on it. -/
def serializeParams (ps : List (String × String)) : String :=
  String.intercalate "&" (ps.map (fun p => p.1 ++ "=" ++ p.2))

/-- The request fetchOne issues: engine in the path and the search parameters. -/
structure SearchRequest where
  engine : String
  url : String
  params : List (String × String)
deriving Repr, DecidableEq

/-- Request construction of fetchOne, mirroring the URLSearchParams sequence:
q, documentType, network only when language is truthy (non-empty), tags only
when the tag list is non-empty (comma-joined), limit fixed at 500; the engine
is interpolated into the path. -/
def fetchOneRequest (documentType qv language : String) (tags : List String)
    (engine : String) : SearchRequest :=
  let ps0 := setParam [] "q" qv
  let ps1 := setParam ps0 "documentType" documentType
  let ps2 := if language ≠ "" then setParam ps1 "network" language else ps1
  let ps3 := if tags.length ≠ 0 then setParam ps2 "tags" (String.intercalate "," tags) else ps2
  let ps4 := setParam ps3 "limit" "500"
  { engine := engine
    url := API_BASE ++ "/search/" ++ engine ++ "?" ++ serializeParams ps4
    params := ps4 }

/-- JavaScript String.prototype.trim: whitespace stripped from both ends.
Implemented on the character list so that it evaluates by reduction. -/
def jsTrim (s : String) : String :=
  String.mk (((s.data.dropWhile Char.isWhitespace).reverse.dropWhile Char.isWhitespace).reverse)

/-- Requests issued by one fetch cycle of fetchData: qv is the trimmed
debounced query; the empty-query branch passes the empty term for both
categories, the search branch passes qv, both to the same fetchOne. -/
def cycleRequests (debouncedQ engine language : String) (tags : List String) :
    SearchRequest × SearchRequest :=
  let qv := jsTrim debouncedQ
  if qv = "" then
    (fetchOneRequest "playlist" "" language tags engine,
     fetchOneRequest "media" "" language tags engine)
  else
    (fetchOneRequest "playlist" qv language tags engine,
     fetchOneRequest "media" qv language tags engine)

/-- Tab selection of the UI. -/
inductive Tab where
  | series
  | episodes
deriving Repr, DecidableEq

/-- Pair of tab counts (the counts state of App). -/
structure Counts where
  series : Int
  episodes : Int
deriving Repr, DecidableEq

/-- Value held by dialogData after a card click: the raw API record when the
item has one, else the minimal item (it.raw ?? it). -/
inductive DialogData where
  | apiRecord (ai : ApiItem)
  | minimalItem (it : Item)
deriving Repr, DecidableEq

/-- State of the App component (the useState hooks of the latest revision). -/
structure AppState where
  q : String
  tab : Tab
  loading : Bool
  counts : Counts
  seriesItems : List Item
  episodeItems : List Item
  dialogOpen : Bool
  dialogData : Option DialogData
  engine : String
  language : String
  tags : List String
deriving Repr, DecidableEq

/-- Translation of the setTab state setter: it replaces only the tab field. -/
def setTab (t : Tab) (st : AppState) : AppState := { st with tab := t }

/-- List rendered by the card grid: seriesItems on the series tab, episodeItems
on the episodes tab. -/
def visible (st : AppState) : List Item :=
  if st.tab = Tab.series then st.seriesItems else st.episodeItems

/-- Translation of handleCardClick: dialogData becomes it.raw ?? it and the
dialog opens. -/
def handleCardClick (it : Item) (st : AppState) : AppState :=
  { st with
    dialogData := some (match it.raw with
      | some ai => DialogData.apiRecord ai
      | none => DialogData.minimalItem it)
    dialogOpen := true }

/-- Translation of handleCloseDialog: only the open flag is reset. -/
def handleCloseDialog (st : AppState) : AppState := { st with dialogOpen := false }

/-- Label of the series tab as rendered in the Tabs header. -/
def seriesTabLabel (c : Counts) : String := "Series (" ++ toString c.series ++ ")"

/-- Label of the episodes tab as rendered in the Tabs header. -/
def episodesTabLabel (c : Counts) : String := "Episodes (" ++ toString c.episodes ++ ")"

/-- Joint settlement of the two parallel fetchOne calls of one cycle, as seen
by Promise.all: success only when both resolve; any non-abort rejection of
either fails the cycle as a unit. Abort rejections happen exactly for
superseded cycles and are handled in the step semantics below. -/
inductive Settlement where
  | success (seriesRes episodesRes : FetchResult)
  | failure
deriving Repr, DecidableEq

/-- Settlement computed from the two network outcomes of a cycle. -/
def settleOf (oS oE : FetchOutcome) : Settlement :=
  match fetchOneResult oS, fetchOneResult oE with
  | Except.ok s, Except.ok e => Settlement.success s e
  | _, _ => Settlement.failure

/-- One fetch cycle: the trimmed debounced query captured at start and the
network outcomes of its playlist and media requests. -/
structure FetchCycle where
  qv : String
  oS : FetchOutcome
  oE : FetchOutcome
deriving Repr, DecidableEq

/-- Observable state written by fetch cycles: loading flag, counts, the two
item lists, and the console-error log. -/
structure AppView where
  loading : Bool
  counts : Counts
  seriesItems : List Item
  episodeItems : List Item
  log : List String
deriving Repr, DecidableEq

/-- Initial values of the useState hooks feeding AppView. -/
def initView : AppView :=
  { loading := false, counts := ⟨0, 0⟩, seriesItems := [], episodeItems := [], log := [] }

/-- Message passed to console.error on cycle failure; the empty-query branch
logs a different constant than the search branch. -/
def failMsg (qv : String) : String :=
  if qv = "" then "Fetch all failed" else "Search fetch failed"

/-- Success commit of a cycle: counts from the API totals, both item lists
replaced wholesale, loading cleared by the finally block. -/
def commitSuccess (s e : FetchResult) (v : AppView) : AppView :=
  { v with
    counts := ⟨s.total, e.total⟩
    seriesItems := s.mapped
    episodeItems := e.mapped
    loading := false }

/-- Failure commit of a cycle (catch block, non-abort error): log the failure,
clear both lists, zero both counts, loading cleared by the finally block. -/
def commitFailure (msg : String) (v : AppView) : AppView :=
  { v with
    log := v.log ++ [msg]
    seriesItems := []
    episodeItems := []
    counts := ⟨0, 0⟩
    loading := false }

/-- View transition when cycle i settles while started cycles have been
numbered 0..started-1. A cycle is superseded exactly when a later cycle has
started, because each new fetchData call aborts the controller of its
predecessor; a superseded settlement rejects with AbortError, the catch block
returns early, and only the finally block runs (loading false). An owning
settlement applies its commit. -/
def settleView (cycles : Nat → FetchCycle) (started i : Nat) (v : AppView) : AppView :=
  if started > i + 1 then
    { v with loading := false }
  else
    match settleOf (cycles i).oS (cycles i).oE with
    | Settlement.success s e => commitSuccess s e v
    | Settlement.failure => commitFailure (failMsg (cycles i).qv) v

/-- Global state of the event semantics: the observable view and how many
cycles have started. -/
structure SysState where
  view : AppView
  started : Nat
deriving Repr, DecidableEq

/-- Events of the fetch orchestration: cycle i starts (fetchData is invoked:
it aborts the previous controller and sets loading true before awaiting), or
cycle i settles (its Promise.all resolves or rejects and the continuation
runs). -/
inductive Ev where
  | start (i : Nat)
  | settle (i : Nat)
deriving Repr, DecidableEq

/-- Small-step transition of the orchestration. -/
def step (cycles : Nat → FetchCycle) (sys : SysState) : Ev → SysState
  | Ev.start _ => { view := { sys.view with loading := true }, started := sys.started + 1 }
  | Ev.settle i => { view := settleView cycles sys.started i sys.view, started := sys.started }

/-- Run of an event list from an arbitrary state. -/
def runFrom (cycles : Nat → FetchCycle) (sys : SysState) (evs : List Ev) : SysState :=
  evs.foldl (step cycles) sys

/-- Run of an event list from the mount state. -/
def run (cycles : Nat → FetchCycle) (evs : List Ev) : SysState :=
  runFrom cycles { view := initView, started := 0 } evs

/-- Validity checker for an event list over n cycles, tracking the number of
started cycles and the settled ones: starts occur in order 0,1,..., each
settle follows its start and occurs once, and at the end all n cycles have
started and settled. -/
def traceOK (n : Nat) : Nat → List Nat → List Ev → Bool
  | s, done, [] => s == n && (List.range n).all (fun i => done.contains i)
  | s, done, Ev.start i :: rest => i == s && decide (i < n) && traceOK n (s + 1) done rest
  | s, done, Ev.settle i :: rest =>
      decide (i < s) && !(done.contains i) && traceOK n s (i :: done) rest

/-- Items and counts written by the commit of a cycle when it settles as the
current cycle. -/
def finalCommit (c : FetchCycle) : List Item × List Item × Counts :=
  match settleOf c.oS c.oE with
  | Settlement.success s e => (s.mapped, e.mapped, ⟨s.total, e.total⟩)
  | Settlement.failure => ([], [], ⟨0, 0⟩)

/-- Committed item lists and counts of a system state. -/
def committed (sys : SysState) : List Item × List Item × Counts :=
  (sys.view.seriesItems, sys.view.episodeItems, sys.view.counts)

/-- User mutation events on the search screen. -/
inductive Mut where
  | setQ (s : String)
  | setEngine (e : String)
  | setLanguage (l : String)
  | setTags (ts : List String)
  | setTab (t : Tab)
deriving Repr, DecidableEq

/-- Timeline of user mutations, each stamped with its time. -/
abbrev Timeline : Type := List (Nat × Mut)

/-- Query mutations of a timeline. -/
def qEvs (tl : Timeline) : List (Nat × String) :=
  tl.filterMap (fun p => match p.2 with | Mut.setQ s => some (p.1, s) | _ => none)

/-- Engine mutations of a timeline. -/
def engineEvs (tl : Timeline) : List (Nat × String) :=
  tl.filterMap (fun p => match p.2 with | Mut.setEngine e => some (p.1, e) | _ => none)

/-- Language mutations of a timeline. -/
def languageEvs (tl : Timeline) : List (Nat × String) :=
  tl.filterMap (fun p => match p.2 with | Mut.setLanguage l => some (p.1, l) | _ => none)

/-- Tag mutations of a timeline. -/
def tagsEvs (tl : Timeline) : List (Nat × List String) :=
  tl.filterMap (fun p => match p.2 with | Mut.setTags ts => some (p.1, ts) | _ => none)

/-- Recognizer for tab mutations. -/
def isTabMut : Mut → Bool
  | Mut.setTab _ => true
  | _ => false

/-- Value of a piecewise-constant signal at time t: the last listed value with
stamp at most t, else the initial value. -/
def valAt {α : Type} (evs : List (Nat × α)) (d : α) (t : Nat) : α :=
  (evs.filter (fun p => decide (p.1 ≤ t))).foldl (fun _ p => p.2) d

/-- Modelled from the spec: the useDebounce hook (imported from
./hooks/useDebounce, a file absent from the sources) implements trailing-edge
debouncing with a 500-unit window, each query mutation resetting the timer.
Accordingly a query mutation at time u commits its value at u + 500 exactly
when no further query mutation happens strictly inside (u, u + 500). -/
def qCommits (qevs : List (Nat × String)) : List (Nat × String) :=
  (qevs.filter (fun p =>
    !(qevs.any (fun p2 => decide (p.1 < p2.1) && decide (p2.1 < p.1 + 500))))).map
    (fun p => (p.1 + 500, p.2))

/-- Modelled from the spec: debounced query signal produced by useDebounce,
initially the empty string. -/
def debouncedAt (tl : Timeline) (t : Nat) : String := valAt (qCommits (qEvs tl)) "" t

/-- Engine signal; initial value "al". -/
def engineAt (tl : Timeline) (t : Nat) : String := valAt (engineEvs tl) "al" t

/-- Language signal; initial value "en". -/
def languageAt (tl : Timeline) (t : Nat) : String := valAt (languageEvs tl) "en" t

/-- Tags signal; initially empty. -/
def tagsAt (tl : Timeline) (t : Nat) : List String := valAt (tagsEvs tl) [] t

/-- Dependency tuple of the fetchData callback: exactly the useCallback
dependency list [debouncedQ, engine, language, tags]. The tab is not a
dependency. -/
def deps (tl : Timeline) (t : Nat) : String × String × String × List String :=
  (debouncedAt tl t, engineAt tl t, languageAt tl t, tagsAt tl t)

/-- Times at which a fetch cycle is triggered under the effect semantics: the
mount effect runs fetchData at time 0, and afterwards the effect re-runs
exactly when some dependency of fetchData changes value. -/
def triggers (tl : Timeline) (horizon : Nat) : List Nat :=
  0 :: (List.range' 1 horizon).filter (fun t => decide (deps tl t ≠ deps tl (t - 1)))

/-- Sample playlist record used by concrete witnesses. -/
def apiItemA : ApiItem :=
  { id := "a1", externalId := none, title := "Alpha", description := none,
    thumbnailUrl := none, tags := none, documentType := "playlist" }

/-- Sample media record used by concrete witnesses. -/
def apiItemB : ApiItem :=
  { id := "b1", externalId := some "x9", title := "Beta", description := some "ep",
    thumbnailUrl := some "http://img", tags := some ["t1"], documentType := "media" }

/-- Well-formed 200 response carrying the given records and total. -/
def respWith (items : List ApiItem) (tot : Int) : HttpResp :=
  { status := 200
    json := some
      { message := "OK"
        data := some
          { engine := "al", limit := 500, page := 1, results := some items, total := some tot } } }

/-- Response with a 500 status whose body is nevertheless well-formed JSON
carrying records and a total. -/
def resp500 : HttpResp :=
  { status := 500
    json := some
      { message := "Internal Server Error"
        data := some
          { engine := "al", limit := 500, page := 1
            results := some [apiItemA], total := some 7 } } }

/-- Concrete successful cycle: playlist total 3 with one record, media total 42
with one record. -/
def cycA : FetchCycle :=
  { qv := "faith", oS := FetchOutcome.ok (respWith [apiItemA] 3),
    oE := FetchOutcome.ok (respWith [apiItemB] 42) }

/-- Second concrete successful cycle with different results. -/
def cycB : FetchCycle :=
  { qv := "grace", oS := FetchOutcome.ok (respWith [] 0),
    oE := FetchOutcome.ok (respWith [apiItemB] 1) }

/-- Two-cycle schedule used by concrete witnesses. -/
def cyclesAB : Nat → FetchCycle := fun i => if i = 0 then cycA else cycB

/-- Schedule whose every cycle receives the 500-status well-formed response on
both requests. -/
def cycles500 : Nat → FetchCycle :=
  fun _ => { qv := "faith", oS := FetchOutcome.ok resp500, oE := FetchOutcome.ok resp500 }

/-- Schedule whose first cycle fails on the playlist request with a transport
error. -/
def cyclesFail : Nat → FetchCycle :=
  fun _ => { qv := "faith", oS := FetchOutcome.networkError, oE := FetchOutcome.ok (respWith [] 0) }

/-- Schedule with an empty-query cycle. -/
def cyclesEmptyQ : Nat → FetchCycle :=
  fun _ => { qv := "", oS := FetchOutcome.ok (respWith [apiItemA] 5),
             oE := FetchOutcome.ok (respWith [apiItemB] 9) }

/-- System state with one started cycle and the mount view. -/
def sysOne : SysState := { view := initView, started := 1 }

/-- System state with two started cycles and the mount view. -/
def sysTwo : SysState := { view := initView, started := 2 }

/-- C8: for every fetch-one call the issued request carries exactly the query
term, the documentType, the network code when a language is selected, the
comma-joined tags when the tag set is non-empty, and the fixed limit 500,
with the selected engine identifier in the path. -/
theorem c8_request_params (documentType qv language : String) (tags : List String)
    (engine : String) :
    (fetchOneRequest documentType qv language tags engine).engine = engine ∧
    (fetchOneRequest documentType qv language tags engine).url =
      API_BASE ++ "/search/" ++ engine ++ "?" ++
        serializeParams (fetchOneRequest documentType qv language tags engine).params ∧
    (fetchOneRequest documentType qv language tags engine).params =
      [("q", qv), ("documentType", documentType)] ++
      (if language ≠ "" then [("network", language)] else []) ++
      (if tags ≠ [] then [("tags", String.intercalate "," tags)] else []) ++
      [("limit", "500")] := by
  refine ⟨rfl, rfl, ?_⟩
  by_cases hl : language = "" <;> by_cases ht : tags = [] <;>
    simp [fetchOneRequest, setParam, hl, ht]

/-- C9: closing the detail dialog changes only the open flag and keeps the held
record, and a card click replaces the held record with the raw API record of
the clicked item (or the minimal item when no raw record is present) and opens
the dialog. -/
theorem c9_dialog_frame (st : AppState) (it : Item) :
    (handleCloseDialog st).dialogOpen = false ∧
    (handleCloseDialog st).dialogData = st.dialogData ∧
    (handleCloseDialog st).q = st.q ∧
    (handleCloseDialog st).tab = st.tab ∧
    (handleCloseDialog st).counts = st.counts ∧
    (handleCloseDialog st).seriesItems = st.seriesItems ∧
    (handleCloseDialog st).episodeItems = st.episodeItems ∧
    (handleCardClick it st).dialogData = some (match it.raw with
      | some ai => DialogData.apiRecord ai
      | none => DialogData.minimalItem it) ∧
    (handleCardClick it st).dialogOpen = true :=
  ⟨rfl, rfl, rfl, rfl, rfl, rfl, rfl, rfl, rfl⟩

/-- C10 counterexample: a response whose parsed JSON lacks the results array
but carries total 5 makes fetchOne return total 5, not 0, so the claim that
any such response yields a total of 0 fails on the code. -/
theorem c10_total_counterexample :
    fetchOneResult (FetchOutcome.ok
      ⟨200, some ⟨"OK", some ⟨"al", 500, 1, none, some 5⟩⟩⟩) =
      Except.ok { mapped := [], total := 5 } ∧
    ({ mapped := [], total := 5 } : FetchResult) ≠ { mapped := [], total := 0 } :=
  ⟨rfl, by decide⟩

/-- C10 amended: fetch-one never throws on missing data, results or total and
applies per-field defaults (missing data gives the empty list and 0, a missing
results array gives the empty mapped list, a missing total gives 0), and
mapping defaults a missing description to the empty string while retaining
the unmodified original record in the raw field. -/
theorem c10_defensive_amended :
    (∀ (st : Nat) (msg : String),
      fetchOneResult (FetchOutcome.ok { status := st, json := some { message := msg, data := none } }) =
        Except.ok { mapped := [], total := 0 }) ∧
    (∀ (st : Nat) (msg eng : String) (lim pg : Int),
      fetchOneResult (FetchOutcome.ok ⟨st, some ⟨msg, some ⟨eng, lim, pg, none, none⟩⟩⟩) =
        Except.ok { mapped := [], total := 0 }) ∧
    (∀ (st : Nat) (msg eng : String) (lim pg tot : Int),
      fetchOneResult (FetchOutcome.ok ⟨st, some ⟨msg, some ⟨eng, lim, pg, none, some tot⟩⟩⟩) =
        Except.ok { mapped := [], total := tot }) ∧
    (∀ (st : Nat) (msg eng : String) (lim pg : Int) (items : List ApiItem),
      fetchOneResult (FetchOutcome.ok ⟨st, some ⟨msg, some ⟨eng, lim, pg, some items, none⟩⟩⟩) =
        Except.ok { mapped := items.map mapApiToItem, total := 0 }) ∧
    (∀ ai : ApiItem, (mapApiToItem ai).raw = some ai) ∧
    (∀ (idv : String) (exId : Option String) (title : String) (thumb : Option String)
      (tg : Option (List String)) (dt : String),
      (mapApiToItem ⟨idv, exId, title, none, thumb, tg, dt⟩).description = "") :=
  ⟨fun _ _ => rfl, fun _ _ _ _ _ => rfl, fun _ _ _ _ _ _ => rfl, fun _ _ _ _ _ _ => rfl,
   fun _ => rfl, fun _ _ _ _ _ _ => rfl⟩

/-- C2 counterexample: a non-2xx response (status 500) whose body is
well-formed JSON is not treated as a cycle failure; the cycle succeeds,
commits the records and totals of that body, and logs nothing, so the claim
that a non-2xx status clears both lists, zeroes both counts and is logged
fails on the code. -/
theorem c2_non2xx_counterexample :
    resp500.status = 500 ∧
    fetchOneResult (FetchOutcome.ok resp500) =
      Except.ok { mapped := [mapApiToItem apiItemA], total := 7 } ∧
    (run cycles500 [Ev.start 0, Ev.settle 0]).view.seriesItems = [mapApiToItem apiItemA] ∧
    (run cycles500 [Ev.start 0, Ev.settle 0]).view.counts = ⟨7, 7⟩ ∧
    (run cycles500 [Ev.start 0, Ev.settle 0]).view.log = [] :=
  ⟨rfl, rfl, rfl, rfl, rfl⟩

/-- C2 amended: a cycle that fails for a non-abort reason while owning the
current slot clears both lists, zeroes both counts and logs the failure; an
aborted settlement changes neither lists, counts nor log and is not logged;
and fetch-one rejects exactly on transport failure or a malformed JSON body,
never merely on a non-2xx status. -/
theorem c2_failure_amended :
    (∀ (cycles : Nat → FetchCycle) (sys : SysState) (i : Nat),
      sys.started ≤ i + 1 →
      settleOf (cycles i).oS (cycles i).oE = Settlement.failure →
      (step cycles sys (Ev.settle i)).view.seriesItems = [] ∧
      (step cycles sys (Ev.settle i)).view.episodeItems = [] ∧
      (step cycles sys (Ev.settle i)).view.counts = ⟨0, 0⟩ ∧
      (step cycles sys (Ev.settle i)).view.log = sys.view.log ++ [failMsg (cycles i).qv]) ∧
    (∀ (cycles : Nat → FetchCycle) (sys : SysState) (i : Nat),
      sys.started > i + 1 →
      (step cycles sys (Ev.settle i)).view.seriesItems = sys.view.seriesItems ∧
      (step cycles sys (Ev.settle i)).view.episodeItems = sys.view.episodeItems ∧
      (step cycles sys (Ev.settle i)).view.counts = sys.view.counts ∧
      (step cycles sys (Ev.settle i)).view.log = sys.view.log) ∧
    (∀ o : FetchOutcome,
      isErr (fetchOneResult o) = true ↔
        o = FetchOutcome.networkError ∨ ∃ r, o = FetchOutcome.ok r ∧ r.json = none) := by
  refine ⟨?_, ?_, ?_⟩
  · intro cycles sys i hown hfail
    have hv : (step cycles sys (Ev.settle i)).view =
        commitFailure (failMsg (cycles i).qv) sys.view := by
      show settleView cycles sys.started i sys.view = _
      unfold settleView
      rw [if_neg (by omega), hfail]
    rw [hv]
    exact ⟨rfl, rfl, rfl, rfl⟩
  · intro cycles sys i habort
    have hv : (step cycles sys (Ev.settle i)).view = { sys.view with loading := false } := by
      show settleView cycles sys.started i sys.view = _
      unfold settleView
      rw [if_pos (by omega)]
    rw [hv]
    exact ⟨rfl, rfl, rfl, rfl⟩
  · intro o
    cases o with
    | networkError => simp [fetchOneResult, isErr]
    | ok r =>
      cases hr : r.json with
      | none => simp [fetchOneResult, isErr, hr]
      | some resp => simp [fetchOneResult, isErr, hr]

/-- C2 amended witness: concrete instances of the three arms. -/
theorem c2_failure_amended_witness :
    (step cyclesFail sysOne (Ev.settle 0)).view.seriesItems = [] ∧
    (step cyclesFail sysOne (Ev.settle 0)).view.log = [failMsg "faith"] ∧
    (step cyclesFail sysTwo (Ev.settle 0)).view.counts = sysTwo.view.counts ∧
    isErr (fetchOneResult FetchOutcome.networkError) = true := by
  have h := c2_failure_amended
  have h1 := h.1 cyclesFail sysOne 0 (by decide) rfl
  have h2 := h.2.1 cyclesFail sysTwo 0 (by decide)
  exact ⟨h1.1, h1.2.2.2, h2.2.2.1, (h.2.2 FetchOutcome.networkError).mpr (Or.inl rfl)⟩

/-- C3: after a successful fetch cycle that owns the current slot, the
committed counts and the rendered tab labels come from the totals returned by
the API for each category, whatever the (possibly truncated) item lists
contain. -/
theorem c3_counts_from_totals (cycles : Nat → FetchCycle) (sys : SysState) (i : Nat)
    (s e : FetchResult) (hown : sys.started ≤ i + 1)
    (hs : settleOf (cycles i).oS (cycles i).oE = Settlement.success s e) :
    (step cycles sys (Ev.settle i)).view.counts = ⟨s.total, e.total⟩ ∧
    seriesTabLabel (step cycles sys (Ev.settle i)).view.counts =
      "Series (" ++ toString s.total ++ ")" ∧
    episodesTabLabel (step cycles sys (Ev.settle i)).view.counts =
      "Episodes (" ++ toString e.total ++ ")" := by
  have hv : (step cycles sys (Ev.settle i)).view = commitSuccess s e sys.view := by
    show settleView cycles sys.started i sys.view = _
    unfold settleView
    rw [if_neg (by omega), hs]
  rw [hv]
  exact ⟨rfl, rfl, rfl⟩

/-- C3 witness: playlist total 3, media total 42, while only one record per
list is held, so the counts are visibly not the list lengths. -/
theorem c3_counts_from_totals_witness :
    (step cyclesAB sysOne (Ev.settle 0)).view.counts = ⟨3, 42⟩ ∧
    seriesTabLabel (step cyclesAB sysOne (Ev.settle 0)).view.counts = "Series (3)" ∧
    (step cyclesAB sysOne (Ev.settle 0)).view.seriesItems.length = 1 := by
  have h := c3_counts_from_totals cyclesAB sysOne 0
    ⟨[mapApiToItem apiItemA], 3⟩ ⟨[mapApiToItem apiItemB], 42⟩ (by decide) rfl
  exact ⟨h.1, h.2.1, by decide⟩

/-- C5: with an empty trimmed debounced query the cycle issues the same two
parallel requests with the empty term (category playlist and category media),
through the same request construction as a non-empty search, and a successful
settlement commits the returned listings and their true totals rather than
skipping the fetch or clearing state. -/
theorem c5_empty_query (debouncedQ engine language : String) (tags : List String)
    (hq : jsTrim debouncedQ = "") :
    cycleRequests debouncedQ engine language tags =
      (fetchOneRequest "playlist" "" language tags engine,
       fetchOneRequest "media" "" language tags engine) ∧
    (∀ dq : String, cycleRequests dq engine language tags =
      (fetchOneRequest "playlist" (jsTrim dq) language tags engine,
       fetchOneRequest "media" (jsTrim dq) language tags engine)) ∧
    (∀ (cycles : Nat → FetchCycle) (sys : SysState) (i : Nat) (s e : FetchResult),
      sys.started ≤ i + 1 → (cycles i).qv = "" →
      settleOf (cycles i).oS (cycles i).oE = Settlement.success s e →
      (step cycles sys (Ev.settle i)).view.seriesItems = s.mapped ∧
      (step cycles sys (Ev.settle i)).view.episodeItems = e.mapped ∧
      (step cycles sys (Ev.settle i)).view.counts = ⟨s.total, e.total⟩ ∧
      (step cycles sys (Ev.settle i)).view.loading = false) := by
  refine ⟨by simp [cycleRequests, hq], ?_, ?_⟩
  · intro dq
    by_cases h : jsTrim dq = "" <;> simp [cycleRequests, h]
  · intro cycles sys i s e hown hqv hs
    have hv : (step cycles sys (Ev.settle i)).view = commitSuccess s e sys.view := by
      show settleView cycles sys.started i sys.view = _
      unfold settleView
      rw [if_neg (by omega), hs]
    rw [hv]
    exact ⟨rfl, rfl, rfl, rfl⟩

/-- C5 witness: a whitespace query trims to empty; the requests carry the
empty term and a successful settlement commits listings and totals. -/
theorem c5_empty_query_witness :
    cycleRequests "   " "al" "en" [] =
      (fetchOneRequest "playlist" "" "en" [] "al",
       fetchOneRequest "media" "" "en" [] "al") ∧
    (step cyclesEmptyQ sysOne (Ev.settle 0)).view.seriesItems = [mapApiToItem apiItemA] ∧
    (step cyclesEmptyQ sysOne (Ev.settle 0)).view.counts = ⟨5, 9⟩ := by
  have h := c5_empty_query "   " "al" "en" [] (by decide)
  have h3 := h.2.2 cyclesEmptyQ sysOne 0
    ⟨[mapApiToItem apiItemA], 5⟩ ⟨[mapApiToItem apiItemB], 9⟩ (by decide) rfl rfl
  exact ⟨h.1, h3.1, h3.2.2.1⟩

/-- C7 counterexample: after cycle 1 starts (setting loading true) the
settlement of the superseded cycle 0 still runs its finally block and resets
loading to false while cycle 1 is in flight, so the claim that only the cycle
owning the current slot sets loading false fails on the code. -/
theorem c7_loading_counterexample :
    (run cyclesAB [Ev.start 0, Ev.start 1]).view.loading = true ∧
    (run cyclesAB [Ev.start 0, Ev.start 1, Ev.settle 0]).view.loading = false ∧
    (run cyclesAB [Ev.start 0, Ev.start 1, Ev.settle 0]).started = 2 :=
  ⟨rfl, rfl, rfl⟩

/-- C7 amended: every settling cycle sets loading to false exactly once, in
all three completion paths (success, failure, and the abort path of a
superseded cycle), regardless of whether it still owns the current slot; every
starting cycle sets loading to true. -/
theorem c7_loading_amended (cycles : Nat → FetchCycle) (sys : SysState) (i : Nat) :
    (step cycles sys (Ev.settle i)).view.loading = false ∧
    (step cycles sys (Ev.start i)).view.loading = true := by
  constructor
  · show (settleView cycles sys.started i sys.view).loading = false
    unfold settleView
    split
    · rfl
    · cases settleOf (cycles i).oS (cycles i).oE <;> rfl
  · rfl

/-- Helper for C1: along any valid trace the committed item lists and counts
end up being the commit of the last cycle, because a settlement only writes
when no later cycle has started, and the last cycle is never superseded. The
statement is generalized over the traceOK accumulator. -/
theorem runFrom_commits (n : Nat) (hn : 1 ≤ n) (cycles : Nat → FetchCycle) :
    ∀ (evs : List Ev) (s : Nat) (done : List Nat) (sys : SysState),
      sys.started = s → s ≤ n → (∀ j ∈ done, j < s) →
      traceOK n s done evs = true →
      committed (runFrom cycles sys evs) =
        (if (n - 1) ∈ done then committed sys else finalCommit (cycles (n - 1))) := by
  intro evs
  induction evs with
  | nil =>
    intro s done sys hst hsn hdone hok
    simp only [traceOK, Bool.and_eq_true, beq_iff_eq, List.all_eq_true] at hok
    obtain ⟨hsn2, hall⟩ := hok
    have hmem : (n - 1) ∈ done := by
      have h1 := hall (n - 1) (List.mem_range.mpr (by omega))
      simpa using h1
    rw [if_pos hmem]
    rfl
  | cons ev rest ih =>
    intro s done sys hst hsn hdone hok
    cases ev with
    | start i =>
      simp only [traceOK, Bool.and_eq_true, beq_iff_eq, decide_eq_true_eq] at hok
      obtain ⟨⟨his, hin⟩, hrest⟩ := hok
      have hstep : runFrom cycles sys (Ev.start i :: rest) =
          runFrom cycles (step cycles sys (Ev.start i)) rest := rfl
      rw [hstep]
      have h2 := ih (s + 1) done (step cycles sys (Ev.start i))
        (by simp [step, hst]) (by omega) (fun j hj => by have := hdone j hj; omega) hrest
      rw [h2]
      have hcs : committed (step cycles sys (Ev.start i)) = committed sys := rfl
      rw [hcs]
    | settle i =>
      simp only [traceOK, Bool.and_eq_true, decide_eq_true_eq, Bool.not_eq_true'] at hok
      obtain ⟨⟨his, hcon⟩, hrest⟩ := hok
      have hnotin : i ∉ done := by simpa using hcon
      have hstep : runFrom cycles sys (Ev.settle i :: rest) =
          runFrom cycles (step cycles sys (Ev.settle i)) rest := rfl
      rw [hstep]
      have hst2 : (step cycles sys (Ev.settle i)).started = s := hst
      have hdone2 : ∀ j ∈ (i :: done), j < s := by
        intro j hj
        rcases List.mem_cons.mp hj with h | h
        · omega
        · exact hdone j h
      have h2 := ih s (i :: done) (step cycles sys (Ev.settle i)) hst2 hsn hdone2 hrest
      rw [h2]
      by_cases hab : s > i + 1
      · have hne : i ≠ n - 1 := by omega
        have hcs : committed (step cycles sys (Ev.settle i)) = committed sys := by
          show committed ⟨settleView cycles sys.started i sys.view, sys.started⟩ = _
          unfold settleView
          rw [hst, if_pos hab]
          rfl
        rw [hcs]
        by_cases hm : (n - 1) ∈ done
        · rw [if_pos (List.mem_cons.mpr (Or.inr hm)), if_pos hm]
        · have hm2 : (n - 1) ∉ (i :: done) := by
            intro hmem
            rcases List.mem_cons.mp hmem with h | h
            · exact hne h.symm
            · exact hm h
          rw [if_neg hm2, if_neg hm]
      · by_cases hie : i = n - 1
        · have hcs : committed (step cycles sys (Ev.settle i)) = finalCommit (cycles i) := by
            show committed ⟨settleView cycles sys.started i sys.view, sys.started⟩ = _
            unfold settleView finalCommit
            rw [hst, if_neg hab]
            cases settleOf (cycles i).oS (cycles i).oE <;> rfl
          have hm : (n - 1) ∉ done := hie ▸ hnotin
          rw [if_pos (List.mem_cons.mpr (Or.inl hie.symm)), hcs, hie, if_neg hm]
        · have hm : (n - 1) ∉ done := by
            intro hmem
            have := hdone _ hmem
            omega
          have hm2 : (n - 1) ∉ (i :: done) := by
            intro hmem
            rcases List.mem_cons.mp hmem with h | h
            · exact hie h.symm
            · exact hm h
          rw [if_neg hm2, if_neg hm]

/-- C1: along every complete valid trace of fetch cycles, whatever the order
in which settlements arrive, the committed item lists and counts are those of
the most recently started cycle; a superseded cycle never writes them. -/
theorem c1_supersession (n : Nat) (hn : 1 ≤ n) (cycles : Nat → FetchCycle)
    (evs : List Ev) (hok : traceOK n 0 [] evs = true) :
    committed (run cycles evs) = finalCommit (cycles (n - 1)) := by
  have h := runFrom_commits n hn cycles evs 0 [] { view := initView, started := 0 }
    rfl (by omega) (by simp) hok
  simpa [run] using h

/-- Interleaved trace in which the newer cycle settles before the older one. -/
def evsOutOfOrder : List Ev := [Ev.start 0, Ev.start 1, Ev.settle 1, Ev.settle 0]

/-- C1 witness: two overlapping cycles whose settlements arrive out of order
still commit the items and counts of the most recently started cycle. -/
theorem c1_supersession_witness :
    traceOK 2 0 [] evsOutOfOrder = true ∧
    committed (run cyclesAB evsOutOfOrder) = finalCommit cycB := by
  refine ⟨rfl, ?_⟩
  exact c1_supersession 2 (by omega) cyclesAB evsOutOfOrder rfl

/-- Helper: a timeline of pure query mutations projects back to its event
list. -/
theorem qEvs_map_setQ (qs : List (Nat × String)) :
    qEvs (qs.map (fun p => (p.1, Mut.setQ p.2))) = qs := by
  induction qs with
  | nil => rfl
  | cons p rest ih =>
    simp only [List.map_cons, qEvs, List.filterMap_cons] at ih ⊢
    simp [ih]

/-- Helper: a timeline of pure query mutations has no engine events. -/
theorem engineEvs_map_setQ (qs : List (Nat × String)) :
    engineEvs (qs.map (fun p => (p.1, Mut.setQ p.2))) = [] := by
  induction qs with
  | nil => rfl
  | cons p rest ih =>
    simp only [List.map_cons, engineEvs, List.filterMap_cons] at ih ⊢
    simp [ih]

/-- Helper: a timeline of pure query mutations has no language events. -/
theorem languageEvs_map_setQ (qs : List (Nat × String)) :
    languageEvs (qs.map (fun p => (p.1, Mut.setQ p.2))) = [] := by
  induction qs with
  | nil => rfl
  | cons p rest ih =>
    simp only [List.map_cons, languageEvs, List.filterMap_cons] at ih ⊢
    simp [ih]

/-- Helper: a timeline of pure query mutations has no tag events. -/
theorem tagsEvs_map_setQ (qs : List (Nat × String)) :
    tagsEvs (qs.map (fun p => (p.1, Mut.setQ p.2))) = [] := by
  induction qs with
  | nil => rfl
  | cons p rest ih =>
    simp only [List.map_cons, tagsEvs, List.filterMap_cons] at ih ⊢
    simp [ih]

/-- Helper: value of a single-event signal. -/
theorem valAt_single {α : Type} (c : Nat) (v d : α) (t : Nat) :
    valAt [(c, v)] d t = if c ≤ t then v else d := by
  by_cases h : c ≤ t <;> simp [valAt, List.filter, h]

/-- Helper: in a burst of query mutations all lying strictly inside the
500-unit window before a final mutation at time L, only the final mutation
commits, at L + 500. -/
theorem qCommits_burst (init : List (Nat × String)) (L : Nat) (v : String)
    (hinit : ∀ p ∈ init, p.1 < L ∧ L < p.1 + 500) :
    qCommits (init ++ [(L, v)]) = [(L + 500, v)] := by
  unfold qCommits
  rw [List.filter_append]
  have h1 : init.filter (fun p =>
      !((init ++ [(L, v)]).any fun p2 => decide (p.1 < p2.1) && decide (p2.1 < p.1 + 500))) = [] := by
    rw [List.filter_eq_nil_iff]
    intro p hp
    simp only [Bool.not_eq_true', Bool.not_eq_false]
    rw [List.any_eq_true]
    exact ⟨(L, v), by simp, by simp [(hinit p hp).1, (hinit p hp).2]⟩
  have hpred : ((init ++ [(L, v)]).any fun p2 => decide (L < p2.1) && decide (p2.1 < L + 500)) = false := by
    cases hany : ((init ++ [(L, v)]).any fun p2 => decide (L < p2.1) && decide (p2.1 < L + 500)) with
    | false => rfl
    | true =>
      exfalso
      obtain ⟨x, hx, hxp⟩ := List.any_eq_true.mp hany
      simp only [Bool.and_eq_true, decide_eq_true_eq] at hxp
      rcases List.mem_append.mp hx with h | h
      · have h2 := (hinit x h).1
        omega
      · have hx2 : x = (L, v) := by simpa using h
        rw [hx2] at hxp
        simp at hxp
  have h2 : [(L, v)].filter (fun p =>
      !((init ++ [(L, v)]).any fun p2 => decide (p.1 < p2.1) && decide (p2.1 < p.1 + 500))) = [(L, v)] := by
    simp only [List.filter, hpred]
    rfl
  rw [h1, h2]
  rfl

/-- Helper: filtering a contiguous range by a predicate that holds exactly at
one point inside the range yields that single point. -/
theorem filter_range_single (p : Nat → Bool) (c : Nat) :
    ∀ (m s : Nat), (∀ t, s ≤ t → t < s + m → (p t = true ↔ t = c)) → s ≤ c → c < s + m →
      (List.range' s m).filter p = [c] := by
  intro m
  induction m with
  | zero => intro s _ hc1 hc2; omega
  | succ m ih =>
    intro s hp hc1 hc2
    rw [List.range'_succ]
    by_cases hs : s = c
    · subst hs
      have hps : p s = true := (hp s le_rfl (by omega)).mpr rfl
      rw [List.filter_cons_of_pos hps]
      have hnil : (List.range' (s + 1) m).filter p = [] := by
        rw [List.filter_eq_nil_iff]
        intro a ha hpa
        have hma := List.mem_range'_1.mp ha
        have := (hp a (by omega) (by omega)).mp hpa
        omega
      rw [hnil]
    · have hps : p s = false := by
        cases hpb : p s with
        | false => rfl
        | true => exact absurd ((hp s le_rfl (by omega)).mp hpb) hs
      rw [List.filter_cons_of_neg (by simp [hps])]
      exact ih (s + 1) (fun u hu1 hu2 => hp u (by omega) (by omega)) (by omega) (by omega)

/-- Helper: debounced signal of a query burst whose final mutation is at L:
empty until L + 500, then the final value. -/
theorem debounced_burst (init : List (Nat × String)) (L : Nat) (v : String)
    (hinit : ∀ p ∈ init, p.1 < L ∧ L < p.1 + 500) (t : Nat) :
    debouncedAt ((init ++ [(L, v)]).map (fun p => (p.1, Mut.setQ p.2))) t =
      if L + 500 ≤ t then v else "" := by
  unfold debouncedAt
  rw [qEvs_map_setQ, qCommits_burst init L v hinit, valAt_single]

/-- Helper: full dependency tuple of a pure query burst. -/
theorem deps_burst (init : List (Nat × String)) (L : Nat) (v : String)
    (hinit : ∀ p ∈ init, p.1 < L ∧ L < p.1 + 500) (t : Nat) :
    deps ((init ++ [(L, v)]).map (fun p => (p.1, Mut.setQ p.2))) t =
      ((if L + 500 ≤ t then v else ""), "al", "en", []) := by
  unfold deps engineAt languageAt tagsAt
  rw [debounced_burst init L v hinit, engineEvs_map_setQ, languageEvs_map_setQ, tagsEvs_map_setQ]
  rfl

/-- Helper: removing tab mutations from a timeline leaves every non-tab
projection unchanged. -/
theorem filterMap_filter_tab {β : Type} (f : Nat × Mut → Option β)
    (hf : ∀ p : Nat × Mut, isTabMut p.2 = true → f p = none) :
    ∀ tl : Timeline, (tl.filter (fun p => !(isTabMut p.2))).filterMap f = tl.filterMap f := by
  intro tl
  induction tl with
  | nil => rfl
  | cons p rest ih =>
    cases hb : isTabMut p.2 with
    | true =>
      rw [List.filter_cons_of_neg (by simp [hb]), ih, List.filterMap_cons, hf p hb]
    | false =>
      rw [List.filter_cons_of_pos (by simp [hb]), List.filterMap_cons, List.filterMap_cons, ih]

/-- Helper: query projection ignores tab mutations. -/
theorem qEvs_filter_tab (tl : Timeline) :
    qEvs (tl.filter (fun p => !(isTabMut p.2))) = qEvs tl :=
  filterMap_filter_tab _
    (fun p hp => by
      obtain ⟨pt, pm⟩ := p
      cases pm <;> simp_all [isTabMut]) tl

/-- Helper: engine projection ignores tab mutations. -/
theorem engineEvs_filter_tab (tl : Timeline) :
    engineEvs (tl.filter (fun p => !(isTabMut p.2))) = engineEvs tl :=
  filterMap_filter_tab _
    (fun p hp => by
      obtain ⟨pt, pm⟩ := p
      cases pm <;> simp_all [isTabMut]) tl

/-- Helper: language projection ignores tab mutations. -/
theorem languageEvs_filter_tab (tl : Timeline) :
    languageEvs (tl.filter (fun p => !(isTabMut p.2))) = languageEvs tl :=
  filterMap_filter_tab _
    (fun p hp => by
      obtain ⟨pt, pm⟩ := p
      cases pm <;> simp_all [isTabMut]) tl

/-- Helper: tags projection ignores tab mutations. -/
theorem tagsEvs_filter_tab (tl : Timeline) :
    tagsEvs (tl.filter (fun p => !(isTabMut p.2))) = tagsEvs tl :=
  filterMap_filter_tab _
    (fun p hp => by
      obtain ⟨pt, pm⟩ := p
      cases pm <;> simp_all [isTabMut]) tl

/-- Helper: the dependency tuple of fetchData never reads tab mutations. -/
theorem deps_filter_tab (tl : Timeline) (t : Nat) :
    deps (tl.filter (fun p => !(isTabMut p.2))) t = deps tl t := by
  unfold deps debouncedAt engineAt languageAt tagsAt
  rw [qEvs_filter_tab, engineEvs_filter_tab, languageEvs_filter_tab, tagsEvs_filter_tab]

/-- Helper: fetch triggers are unchanged when tab mutations are removed. -/
theorem triggers_filter_tab (tl : Timeline) (horizon : Nat) :
    triggers (tl.filter (fun p => !(isTabMut p.2))) horizon = triggers tl horizon := by
  unfold triggers
  congr 1
  apply List.filter_congr
  intro t _
  rw [deps_filter_tab, deps_filter_tab]

/-- Timeline with two engine mutations 10 units apart. -/
def tlEngine : Timeline := [(10, Mut.setEngine "es"), (20, Mut.setEngine "al")]

set_option maxRecDepth 40000 in
/-- C4 counterexample: two filter (engine) mutations 10 units apart trigger a
fetch cycle immediately at each mutation (times 10 and 20, besides the mount
cycle at 0) and no cycle at 520, so the claim that any burst of filter
mutations triggers exactly one cycle 500 units after the last mutation fails
on the code: only the query is debounced, filters are in the effect
dependency list directly. -/
theorem c4_filter_immediate_counterexample :
    triggers tlEngine 530 = [0, 10, 20] ∧ 520 ∉ triggers tlEngine 530 := by
  have h : triggers tlEngine 530 = [0, 10, 20] := by decide
  refine ⟨h, ?_⟩
  rw [h]
  decide

/-- C4 amended: query mutations follow the trailing-edge 500-unit debounce (a
burst of query mutations lying inside the window before the final one yields
exactly one fetch cycle, 500 units after the last mutation, besides the mount
cycle at time 0); a mutation that changes any dependency of fetchData at time
t (in particular any effective filter mutation) triggers a cycle at t itself;
and tab changes neither reset nor trigger the timer. -/
theorem c4_debounce_amended :
    (∀ (init : List (Nat × String)) (L : Nat) (v : String) (horizon : Nat),
      (∀ p ∈ init, p.1 < L ∧ L < p.1 + 500) →
      v ≠ "" → L + 500 ≤ horizon →
      triggers ((init ++ [(L, v)]).map (fun p => (p.1, Mut.setQ p.2))) horizon = [0, L + 500]) ∧
    (∀ (tl : Timeline) (horizon t : Nat),
      1 ≤ t → t ≤ horizon → deps tl t ≠ deps tl (t - 1) → t ∈ triggers tl horizon) ∧
    (∀ (tl : Timeline) (horizon : Nat),
      triggers (tl.filter (fun p => !(isTabMut p.2))) horizon = triggers tl horizon) := by
  refine ⟨?_, ?_, ?_⟩
  · intro init L v horizon hinit hv hh
    unfold triggers
    have hpred : ∀ t, 1 ≤ t → t < 1 + horizon →
        ((fun u => decide (deps ((init ++ [(L, v)]).map (fun p => (p.1, Mut.setQ p.2))) u ≠
          deps ((init ++ [(L, v)]).map (fun p => (p.1, Mut.setQ p.2))) (u - 1))) t = true ↔
          t = L + 500) := by
      intro t ht1 ht2
      rw [decide_eq_true_eq, deps_burst init L v hinit, deps_burst init L v hinit]
      constructor
      · intro hne
        by_contra hne2
        apply hne
        by_cases hc : L + 500 ≤ t
        · have hc2 : L + 500 ≤ t - 1 := by omega
          rw [if_pos hc, if_pos hc2]
        · have hc2 : ¬ (L + 500 ≤ t - 1) := by omega
          rw [if_neg hc, if_neg hc2]
      · intro hteq
        subst hteq
        rw [if_pos (by omega), if_neg (by omega)]
        simp [hv]
    rw [filter_range_single _ (L + 500) horizon 1 hpred (by omega) (by omega)]
  · intro tl horizon t h1 h2 hne
    unfold triggers
    refine List.mem_cons.mpr (Or.inr ?_)
    rw [List.mem_filter]
    exact ⟨List.mem_range'_1.mpr ⟨h1, by omega⟩, by simpa using hne⟩
  · exact triggers_filter_tab

set_option maxRecDepth 40000 in
/-- C4 amended witness: a two-mutation query burst at times 10 and 12 yields
one cycle at 512 besides the mount cycle; the engine mutation of tlEngine at
time 10 triggers at time 10; tab removal leaves triggers unchanged. -/
theorem c4_debounce_amended_witness :
    triggers ((([((10 : Nat), "fa")] ++ [(12, "faith")] : List (Nat × String))).map
        (fun p => (p.1, Mut.setQ p.2))) 600 = [0, 512] ∧
    10 ∈ triggers tlEngine 530 ∧
    triggers (tlEngine.filter (fun p => !(isTabMut p.2))) 530 = triggers tlEngine 530 := by
  refine ⟨c4_debounce_amended.1 [(10, "fa")] 12 "faith" 600 ?_ (by decide) (by omega),
    c4_debounce_amended.2.1 tlEngine 530 10 (by omega) (by omega) (by decide),
    c4_debounce_amended.2.2 tlEngine 530⟩
  intro p hp
  simp only [List.mem_singleton] at hp
  subst hp
  omega

/-- C6: changing the tab replaces only the tab field, so it changes neither
item list nor the counts nor the loading flag; the rendered list becomes the
already-held list of the selected category; and tab mutations never trigger
or reset a fetch cycle, since the dependency tuple of fetchData ignores them. -/
theorem c6_tab_frame (st : AppState) (t : Tab) :
    (setTab t st).seriesItems = st.seriesItems ∧
    (setTab t st).episodeItems = st.episodeItems ∧
    (setTab t st).counts = st.counts ∧
    (setTab t st).loading = st.loading ∧
    (setTab t st).q = st.q ∧
    visible (setTab t st) = (if t = Tab.series then st.seriesItems else st.episodeItems) ∧
    (∀ (tl : Timeline) (horizon : Nat),
      triggers (tl.filter (fun p => !(isTabMut p.2))) horizon = triggers tl horizon) :=
  ⟨rfl, rfl, rfl, rfl, rfl, rfl, fun tl horizon => triggers_filter_tab tl horizon⟩
